import Mathlib

/-!
Verification development for the `rls_rnplug` release-packaging tool
(`src/main.rs`).  Rust strings are embedded as `List Char`; each Lean
definition mirrors the source function of the same name.  The external
crates used by the tool (`semver`, `quick_xml`) are not part of the
repository; where their behaviour decides a property they are modelled
from the specification, as noted on the corresponding definitions.
-/

set_option autoImplicit false

/-- Rust strings are embedded as lists of characters. -/
abbrev Str := List Char

/-- Embed a Lean string literal as a `Str`. -/
def str (s : String) : Str := s.toList

/-- Split a list at every `'.'` (Rust `str::split('.')`): the separators are
dropped and empty segments are kept. -/
def splitOnDot : Str → List Str
  | [] => [[]]
  | c :: rest =>
    match splitOnDot rest with
    | [] => [[c]]
    | h :: t => if c = '.' then [] :: h :: t else (c :: h) :: t

/-- Split at the first occurrence of character `c`: returns the part before
it and, when found, the part after it (the separator removed). -/
def splitFirstChar (c : Char) : Str → Str × Option Str
  | [] => ([], none)
  | d :: rest =>
    if d = c then ([], some rest)
    else
      match splitFirstChar c rest with
      | (b, r) => (d :: b, r)

/-- Rust `input.find(|c| c == '-' || c == '+')` followed by slicing, as in
`parse_version`: the second component keeps the sign character and is `[]`
when no sign occurs. -/
def splitAtFirstSign : Str → Str × Str
  | [] => ([], [])
  | c :: rest =>
    if c = '-' ∨ c = '+' then ([], c :: rest)
    else
      match splitAtFirstSign rest with
      | (b, r) => (c :: b, r)

/-- Rust `str::trim_end_matches('.')`: drop every trailing `'.'`. -/
def trimTrailingDots (s : Str) : Str :=
  ((s.reverse.dropWhile (fun c => c = '.')).reverse)

/-- Numeric value of a digit string. -/
def natOfDigits (s : Str) : Nat :=
  s.foldl (fun n c => 10 * n + (c.toNat - '0'.toNat)) 0

/-- Decimal rendering of a natural number. -/
def numToStr (n : Nat) : Str := Nat.toDigits 10 n

/-- A semver identifier character: ASCII alphanumeric or `'-'`. -/
def isIdentChar (c : Char) : Bool := c.isAlphanum || c = '-'

/-- A numeric identifier must not have a leading zero (unless it is `"0"`). -/
def noLeadingZero : Str → Bool
  | '0' :: _ :: _ => false
  | _ => true

/-- A non-empty all-digit string. -/
def isNumericStr (s : Str) : Bool := !s.isEmpty && s.all Char.isDigit

/-- Strict numeric component of the version core (no leading zeros). -/
def parseNumStrict (s : Str) : Option Nat :=
  if isNumericStr s && noLeadingZero s then some (natOfDigits s) else none

/-- A valid pre-release identifier segment. -/
def validPreComp (s : Str) : Bool :=
  !s.isEmpty && s.all isIdentChar && (if s.all Char.isDigit then noLeadingZero s else true)

/-- A valid build-metadata identifier segment (leading zeros allowed). -/
def validBuildComp (s : Str) : Bool :=
  !s.isEmpty && s.all isIdentChar

/-- Validity of a whole (present) pre-release string. -/
def validPre (s : Str) : Bool := (splitOnDot s).all validPreComp

/-- Validity of a whole (present) build-metadata string. -/
def validBuild (s : Str) : Bool := (splitOnDot s).all validBuildComp

/-- The parsed semver value: `semver::Version`.  An absent pre-release or
build-metadata part is the empty string, as in the crate
(`Prerelease::EMPTY` / `BuildMetadata::EMPTY`, tested by `is_empty()`). -/
structure Version where
  major : Nat
  minor : Nat
  patch : Nat
  pre : Str
  build : Str
deriving DecidableEq, Repr

/-- Modelled from the spec: `semver::Version::parse` (the `semver` crate is a
dependency outside `src/`), the strict parse of
`major.minor.patch[-pre][+build]` per the SemVer 2.0.0 grammar: three
dot-separated numeric components without leading zeros, an optional
pre-release after `'-'` (non-empty dot-separated alphanumeric/hyphen
segments, numeric segments without leading zeros) and optional build
metadata after `'+'` (non-empty dot-separated alphanumeric/hyphen
segments). -/
def Version.parse (input : Str) : Option Version :=
  match splitFirstChar '+' input with
  | (beforePlus, buildPart) =>
    match splitFirstChar '-' beforePlus with
    | (core, prePart) =>
      match splitOnDot core with
      | [a, b, c] =>
        match parseNumStrict a, parseNumStrict b, parseNumStrict c with
        | some ma, some mi, some pa =>
          if (match prePart with | some p => validPre p | none => true)
              && (match buildPart with | some bd => validBuild bd | none => true)
          then some ⟨ma, mi, pa, prePart.getD [], buildPart.getD []⟩
          else none
        | _, _, _ => none
      | _ => none

/-- Canonical rendering, as `semver::Version::to_string`:
`major.minor.patch`, then `-pre` when present, then `+build` when
present. -/
def Version.toStr (v : Version) : Str :=
  numToStr v.major ++ str "." ++ numToStr v.minor ++ str "." ++ numToStr v.patch
    ++ (if v.pre.isEmpty then [] else '-' :: v.pre)
    ++ (if v.build.isEmpty then [] else '+' :: v.build)

/-- Number of non-empty dot-separated components,
`base.split('.').filter(|s| !s.is_empty()).count()`. -/
def compCount (base : Str) : Nat :=
  ((splitOnDot base).filter (fun s => !s.isEmpty)).length

/-- Function `parse_version` from `src/main.rs` lines 111–132: strict parse first;
on failure split off any `-`/`+` suffix, zero-pad the numeric part to three
components (after dropping trailing dots), reattach the suffix and retry. -/
def parse_version (input : Str) : Option Version :=
  match Version.parse input with
  | some v => some v
  | none =>
    match splitAtFirstSign input with
    | (base, rest) =>
      if compCount base = 1 then
        Version.parse (trimTrailingDots base ++ str ".0.0" ++ rest)
      else if compCount base = 2 then
        Version.parse (trimTrailingDots base ++ str ".0" ++ rest)
      else
        none

/-- The version mutation from `main` (`src/main.rs` lines 35–39):
`minor += 1`, and `patch = 0` only when both pre-release and build
metadata are absent. -/
def bump (v : Version) : Version :=
  let v' : Version := { v with minor := v.minor + 1 }
  if v'.build.isEmpty && v'.pre.isEmpty then { v' with patch := 0 } else v'

/-- End-to-end string-level bump: parse then render. -/
def bumpString (s : Str) : Option Str :=
  (parse_version s).map (fun v => (bump v).toStr)

/-- Fuel-indexed scanner behind `replaceAll`; the fuel only bounds the
recursion depth and is set to the text length by the wrapper. -/
def replaceFuel (pat rep : Str) : Nat → Str → Str
  | 0, s => s
  | _ + 1, [] => []
  | fuel + 1, c :: rest =>
    if !pat.isEmpty && pat.isPrefixOf (c :: rest) then
      rep ++ replaceFuel pat rep fuel ((c :: rest).drop pat.length)
    else
      c :: replaceFuel pat rep fuel rest

/-- Rust `str::replace`: every leftmost non-overlapping occurrence of `pat`
in `text` is replaced by `rep` (for a non-empty `pat`). -/
def replaceAll (pat rep text : Str) : Str := replaceFuel pat rep text.length text

/-- Whether `pat` occurs as a contiguous subsequence of the text. -/
def containsSeq (pat : Str) : Str → Bool
  | [] => pat.isEmpty
  | c :: rest => pat.isPrefixOf (c :: rest) || containsSeq pat rest

/-- Split at the leftmost occurrence of `pat`: the part before it and the
part after it (the occurrence itself removed), or `none` if absent. -/
def splitFirstOcc (pat : Str) : Str → Option (Str × Str)
  | [] => if pat.isEmpty then some ([], []) else none
  | c :: rest =>
    if pat.isPrefixOf (c :: rest) then some ([], (c :: rest).drop pat.length)
    else (splitFirstOcc pat rest).map (fun p => (c :: p.1, p.2))

/-- The `format!("<Version>{}</Version>", v)` markup from `main`. -/
def versionTag (v : Str) : Str := str "<Version>" ++ v ++ str "</Version>"

/-- The manifest patch from `main` (`src/main.rs` lines 42–45):
`manifest_str.replace(&format!("<Version>{old}</Version>"), ...)`. -/
def patchManifest (text old new : Str) : Str :=
  replaceAll (versionTag old) (versionTag new) text

/-- Modelled from the spec's words, for comparison with `patchManifest`:
replace only the FIRST occurrence of the pattern, leaving every other byte
(including later occurrences) unchanged. -/
def replaceFirstSpec (pat rep text : Str) : Str :=
  match splitFirstOcc pat text with
  | some (a, b) => a ++ rep ++ b
  | none => text

/-- Rust `Path::extension() == Some("lua")`: the name ends in `".lua"` and
the part before the final dot is non-empty. -/
def hasLuaExt (s : Str) : Bool :=
  decide (4 < s.length) && (str ".lua").isSuffixOf s

/-- The readme selection from `copy_sources` (`src/main.rs` lines 143–149):
`readme.md` is checked first, then `README.md`; existence is an exact-name
lookup in the working-directory listing. -/
def selectReadme (listing : List Str) : Option Str :=
  if (str "readme.md") ∈ listing then some (str "readme.md")
  else if (str "README.md") ∈ listing then some (str "README.md")
  else none

/-- Function `copy_sources` (`src/main.rs` lines 134–151) as a list of
`(destination-name, source-name)` copies, in the order performed: every
`.lua` file in directory-listing order, then the readme, stored as
`README.md`. -/
def copy_sources (listing : List Str) : List (Str × Str) :=
  (listing.filter hasLuaExt).map (fun n => (n, n))
    ++ (match selectReadme listing with
       | some n => [(str "README.md", n)]
       | none => [])

/-- The names placed in the staging directory, in copy order: the
`copy_sources` output followed by the manifest copy (`main` line 59). -/
def releaseFiles (listing : List Str) : List Str :=
  (copy_sources listing).map Prod.fst ++ [str "manifest.xml"]

/-- Strict lexicographic order on embedded strings. -/
def strLtb : Str → Str → Bool
  | [], [] => false
  | [], _ :: _ => true
  | _ :: _, [] => false
  | a :: as, b :: bs => if a < b then true else if a = b then strLtb as bs else false

/-- Whether a list of names is sorted (non-decreasing, by name). -/
def sortedByName : List Str → Bool
  | [] => true
  | [_] => true
  | a :: b :: t => (strLtb a b || decide (a = b)) && sortedByName (b :: t)

/-- The deserialized manifest document (`struct Manifest` in
`src/main.rs` lines 70–81), all fields optional. -/
structure Manifest where
  doc_version : Option Nat
  api_version : Option Nat
  author : Option Str
  id : Option Str
  name : Option Str
  version : Option Str
  description : Option Str
deriving DecidableEq, Repr

/-- Type `enum ManifestError` from `src/main.rs` lines 83–87. -/
inductive ManifestError where
  | Xml (msg : Str)
  | MissingField (field : Str)
deriving DecidableEq, Repr

/-- Function `parse_manifest` (`src/main.rs` lines 100–109), taking the outcome of
the external `quick_xml::de::from_str` deserialization as input: an XML
error is wrapped, a missing `Id` or `Version` field is reported by name,
otherwise the pair `(id, version)` is returned. -/
def parse_manifest (parsed : Except Str Manifest) : Except ManifestError (Str × Str) :=
  match parsed with
  | .error e => .error (.Xml e)
  | .ok m =>
    match m.id with
    | none => .error (.MissingField (str "Id"))
    | some id =>
      match m.version with
      | none => .error (.MissingField (str "Version"))
      | some v => .ok (id, v)

/-- ASCII whitespace. -/
def isWs (c : Char) : Bool := c = ' ' || c = '\t' || c = '\n' || c = '\r'

/-- Trim leading and trailing whitespace. -/
def trimWs (s : Str) : Str :=
  ((s.dropWhile isWs).reverse.dropWhile isWs).reverse

/-- A deserialized optional field, when present, has non-whitespace
content. -/
def resolvedFieldB (o : Option Str) : Bool :=
  match o with
  | none => true
  | some s => !(trimWs s).isEmpty

/-- Modelled from the spec: the `quick_xml` deserializer (a dependency
outside `src/`) resolves a required field to `None` when the element is
absent or its text content is empty or whitespace-only, so any field it
returns as `Some` has non-whitespace content. -/
def deserResolvedB (r : Except Str Manifest) : Bool :=
  match r with
  | .error _ => true
  | .ok m => resolvedFieldB m.id && resolvedFieldB m.version

/-- Kind of a directory entry. -/
inductive Entry where
  | file
  | dir
deriving DecidableEq, Repr

/-- The parts of the on-disk state the release run touches: the content of
`manifest.xml` (`none` when absent), the working-directory listing, and the
`release` directory (`none` when absent) as an association list from entry
name to entry kind. -/
structure FS where
  manifest : Option Str
  srcListing : List Str
  release : Option (List (Str × Entry))
deriving DecidableEq, Repr

/-- The ways the modelled run can abort. -/
inductive RunError where
  | manifestNotFound
  | parse (e : ManifestError)
  | invalidVersion
  | notADirectory
deriving DecidableEq, Repr

/-- Lookup in the release directory by entry name. -/
def lookupEntry (name : Str) : List (Str × Entry) → Option Entry
  | [] => none
  | (n, e) :: t => if n = name then some e else lookupEntry name t

/-- Remove an entry name from the release directory. -/
def removeEntry (name : Str) : List (Str × Entry) → List (Str × Entry)
  | [] => []
  | (n, e) :: t => if n = name then removeEntry name t else (n, e) :: removeEntry name t

/-- Create or replace an entry in the release directory. -/
def setEntry (name : Str) (e : Entry) (l : List (Str × Entry)) : List (Str × Entry) :=
  removeEntry name l ++ [(name, e)]

/-- Function `main` (`src/main.rs` lines 11–67) over the modelled state, with the
XML deserializer passed in as `deser`.  Mirrors the source order: existence
check of `manifest.xml`; `parse_manifest`; `parse_version`; bump; textual
patch written back; `create_dir_all("release")`; if an entry already exists
at `release/<id>.xrnx` it is removed with `remove_dir_all`, which on a
regular file fails with a not-a-directory error; staging directory created,
sources and manifest copied, zipped to `release/<id>.zip`; staging
directory removed and the zip renamed onto `release/<id>.xrnx`.  Returns
the printed output path or the error, together with the final state. -/
def runMain (deser : Str → Except Str Manifest) (fs : FS) :
    Except RunError Str × FS :=
  match fs.manifest with
  | none => (.error .manifestNotFound, fs)
  | some s =>
    match parse_manifest (deser s) with
    | .error e => (.error (.parse e), fs)
    | .ok (toolId, oldVersion) =>
      match parse_version oldVersion with
      | none => (.error .invalidVersion, fs)
      | some v =>
        let newVersion := (bump v).toStr
        let s' := patchManifest s oldVersion newVersion
        let fs1 : FS := { fs with manifest := some s' }
        let rel0 := fs1.release.getD []
        let folder := toolId ++ str ".xrnx"
        match lookupEntry folder rel0 with
        | some .file => (.error .notADirectory, { fs1 with release := some rel0 })
        | _ =>
          let rel1 := setEntry folder .dir rel0
          let zipName := toolId ++ str ".zip"
          let rel2 := setEntry zipName .file rel1
          let rel3 := removeEntry folder rel2
          let rel4 := setEntry folder .file (removeEntry zipName rel3)
          (.ok (str "release/" ++ folder), { fs1 with release := some rel4 })

/-- A deserializer outcome for a well-formed manifest with `Id=MyTool`,
`Version=1.0.0`, used at concrete inputs. -/
def deserMyTool : Str → Except Str Manifest :=
  fun _ => .ok ⟨none, none, none, some (str "MyTool"), none, some (str "1.0.0"), none⟩

/-- A deserializer outcome with the `Id` field missing. -/
def deserMissingId : Str → Except Str Manifest :=
  fun _ => .ok ⟨none, none, none, none, none, some (str "1.0"), none⟩

/-- State where the previous run's archive file sits at
`release/MyTool.xrnx`. -/
def fsPrevFile : FS :=
  ⟨some (str "<Version>1.0.0</Version>"), [], some [(str "MyTool.xrnx", Entry.file)]⟩

/-- State where a directory sits at `release/MyTool.xrnx`. -/
def fsPrevDir : FS :=
  ⟨some (str "<Version>1.0.0</Version>"), [], some [(str "MyTool.xrnx", Entry.dir)]⟩

instance {ε α : Type} [DecidableEq ε] [DecidableEq α] : DecidableEq (Except ε α) :=
  fun a b =>
    match a, b with
    | .error x, .error y => decidable_of_iff (x = y) (by simp)
    | .ok x, .ok y => decidable_of_iff (x = y) (by simp)
    | .error _, .ok _ => isFalse (by simp)
    | .ok _, .error _ => isFalse (by simp)

/-- The version-field markup is never the empty string. -/
theorem versionTag_isEmpty (v : Str) : (versionTag v).isEmpty = false := rfl

/-- A text without an occurrence of the pattern is left unchanged by the
scanner, whatever the fuel. -/
theorem replaceFuel_of_not_contains (pat rep : Str) :
    ∀ (fuel : Nat) (s : Str), containsSeq pat s = false → replaceFuel pat rep fuel s = s := by
  intro fuel
  induction fuel with
  | zero => intro s _; rfl
  | succ k ih =>
    intro s hs
    cases s with
    | nil => rfl
    | cons c rest =>
      rw [containsSeq, Bool.or_eq_false_iff] at hs
      simp [replaceFuel, hs.1, ih rest hs.2]

/-- Scanning a text whose leftmost occurrence of the pattern splits it as
`a ++ pat ++ b`, with no later occurrence, yields `a ++ rep ++ b`. -/
theorem replaceFuel_split (pat rep : Str) (hp : pat.isEmpty = false) :
    ∀ (fuel : Nat) (s a b : Str), s.length ≤ fuel →
      splitFirstOcc pat s = some (a, b) → containsSeq pat b = false →
      replaceFuel pat rep fuel s = a ++ rep ++ b := by
  intro fuel
  induction fuel with
  | zero =>
    intro s a b hlen hsp _
    have hs : s = [] := List.length_eq_zero.mp (Nat.le_zero.mp hlen)
    subst hs
    simp [splitFirstOcc, hp] at hsp
  | succ k ih =>
    intro s a b hlen hsp hb
    cases s with
    | nil => simp [splitFirstOcc, hp] at hsp
    | cons c rest =>
      cases hpre : pat.isPrefixOf (c :: rest) with
      | true =>
        rw [splitFirstOcc, if_pos hpre] at hsp
        obtain ⟨ha, hbd⟩ := Prod.mk.injEq .. ▸ Option.some.inj hsp
        subst ha
        rw [replaceFuel]
        rw [if_pos (by simp [hp, hpre])]
        rw [hbd, replaceFuel_of_not_contains pat rep k b hb]
        simp
      | false =>
        rw [splitFirstOcc, if_neg (by simp [hpre])] at hsp
        obtain ⟨⟨a', b'⟩, hrest, heq⟩ := Option.map_eq_some'.mp hsp
        obtain ⟨ha, hbd⟩ := Prod.mk.injEq .. ▸ heq
        subst ha
        subst hbd
        have hlen' : rest.length ≤ k := Nat.le_of_succ_le_succ (by simpa using hlen)
        rw [replaceFuel, if_neg (by simp [hpre])]
        simp [ih rest a' b' hlen' hrest hb]

/-- C1: for every version string accepted by the version parser, the bumped
version has `minor` equal to the parsed minor plus one, `patch` reset to
zero exactly when neither pre-release nor build metadata is present and
left unchanged otherwise, with `major`, pre-release and build metadata
preserved. -/
theorem c1_bump_minor_patch (s : Str) (v : Version) (h : parse_version s = some v) :
    (bump v).minor = v.minor + 1
    ∧ (bump v).major = v.major
    ∧ (bump v).pre = v.pre
    ∧ (bump v).build = v.build
    ∧ ((v.pre = [] ∧ v.build = []) → (bump v).patch = 0)
    ∧ ((v.pre ≠ [] ∨ v.build ≠ []) → (bump v).patch = v.patch) := by
  rcases v with ⟨ma, mi, pa, pre, build⟩
  cases pre <;> cases build <;> simp [bump]

/-- C1 witness: `"1.2.3-beta"` parses to `1.2.3` with pre-release `beta`,
the bump keeps `patch = 3`, and the rendered result is `"1.3.3-beta"`. -/
theorem c1_bump_minor_patch_witness :
    parse_version (str "1.2.3-beta") = some ⟨1, 2, 3, str "beta", []⟩
    ∧ ((bump ⟨1, 2, 3, str "beta", []⟩).minor = (Version.mk 1 2 3 (str "beta") []).minor + 1
      ∧ (bump ⟨1, 2, 3, str "beta", []⟩).major = (Version.mk 1 2 3 (str "beta") []).major
      ∧ (bump ⟨1, 2, 3, str "beta", []⟩).pre = (Version.mk 1 2 3 (str "beta") []).pre
      ∧ (bump ⟨1, 2, 3, str "beta", []⟩).build = (Version.mk 1 2 3 (str "beta") []).build
      ∧ (((Version.mk 1 2 3 (str "beta") []).pre = [] ∧ (Version.mk 1 2 3 (str "beta") []).build = [])
          → (bump ⟨1, 2, 3, str "beta", []⟩).patch = 0)
      ∧ (((Version.mk 1 2 3 (str "beta") []).pre ≠ [] ∨ (Version.mk 1 2 3 (str "beta") []).build ≠ [])
          → (bump ⟨1, 2, 3, str "beta", []⟩).patch = (Version.mk 1 2 3 (str "beta") []).patch))
    ∧ bumpString (str "1.2.3-beta") = some (str "1.3.3-beta") :=
  ⟨by decide,
    c1_bump_minor_patch (str "1.2.3-beta") ⟨1, 2, 3, str "beta", []⟩ (by decide),
    by decide⟩

/-- C2: an input the strict parser rejects whose numeric part has one or
two non-empty dot-separated components is zero-padded to exactly three
components (after dropping trailing dots) with the pre-release/build
suffix reattached unchanged, and then strict-parsed; consequently
`bump("1") = bump("1.0.0") = "1.1.0"` and
`bump("1.2") = bump("1.2.0") = "1.3.0"`. -/
theorem c2_pad_normalization (s base rest : Str) (h : Version.parse s = none)
    (hsplit : splitAtFirstSign s = (base, rest)) :
    (compCount base = 1 →
      parse_version s = Version.parse (trimTrailingDots base ++ str ".0.0" ++ rest))
    ∧ (compCount base = 2 →
      parse_version s = Version.parse (trimTrailingDots base ++ str ".0" ++ rest))
    ∧ bumpString (str "1") = bumpString (str "1.0.0")
    ∧ bumpString (str "1.2") = bumpString (str "1.2.0")
    ∧ bumpString (str "1") = some (str "1.1.0")
    ∧ bumpString (str "1.2") = some (str "1.3.0") := by
  refine ⟨fun hc => ?_, fun hc => ?_, by decide, by decide, by decide, by decide⟩
  · simp [parse_version, h, hsplit, hc]
  · simp [parse_version, h, hsplit, hc]

/-- C2 witness: instantiated at `"1.4-rc"`, whose numeric part has two
components and which pads to `"1.4.0-rc"`. -/
theorem c2_pad_normalization_witness :
    Version.parse (str "1.4-rc") = none
    ∧ splitAtFirstSign (str "1.4-rc") = (str "1.4", str "-rc")
    ∧ compCount (str "1.4") = 2
    ∧ parse_version (str "1.4-rc")
        = Version.parse (trimTrailingDots (str "1.4") ++ str ".0" ++ str "-rc") :=
  ⟨by decide, by decide, by decide,
    (c2_pad_normalization (str "1.4-rc") (str "1.4") (str "-rc")
      (by decide) (by decide)).2.1 (by decide)⟩

/-- C3 counterexample: on a manifest text containing the old-version markup
twice, the patch rewrites BOTH occurrences, so it differs from the
spec-stated first-occurrence-only replacement, which would leave the second
occurrence unchanged. -/
theorem c3_replace_not_first_only :
    patchManifest (str "<Version>1.0.0</Version> <Version>1.0.0</Version>")
        (str "1.0.0") (str "1.1.0")
      = str "<Version>1.1.0</Version> <Version>1.1.0</Version>"
    ∧ patchManifest (str "<Version>1.0.0</Version> <Version>1.0.0</Version>")
        (str "1.0.0") (str "1.1.0")
      ≠ replaceFirstSpec (versionTag (str "1.0.0")) (versionTag (str "1.1.0"))
          (str "<Version>1.0.0</Version> <Version>1.0.0</Version>") := by
  exact ⟨by decide, by decide⟩

/-- C3 (amended): the patch replaces every leftmost non-overlapping
occurrence of the old-version markup, not only the first; in particular,
when the markup occurs exactly once — leftmost occurrence splitting the
text as `a ++ markup ++ b` with no occurrence in `b` — the result is
`a ++ new-markup ++ b`, every byte outside the replaced markup
unchanged. -/
theorem c3_replace_single_occurrence (text old new a b : Str)
    (h1 : splitFirstOcc (versionTag old) text = some (a, b))
    (h2 : containsSeq (versionTag old) b = false) :
    patchManifest text old new = a ++ versionTag new ++ b := by
  unfold patchManifest replaceAll
  exact replaceFuel_split (versionTag old) (versionTag new) (versionTag_isEmpty old)
    text.length text a b (Nat.le_refl _) h1 h2

/-- C3 witness: a manifest text with a single occurrence of the markup is
patched to prefix, new markup, suffix. -/
theorem c3_replace_single_occurrence_witness :
    splitFirstOcc (versionTag (str "1.0.0")) (str "A<Version>1.0.0</Version>B")
        = some (str "A", str "B")
    ∧ containsSeq (versionTag (str "1.0.0")) (str "B") = false
    ∧ patchManifest (str "A<Version>1.0.0</Version>B") (str "1.0.0") (str "1.1.0")
        = str "A" ++ versionTag (str "1.1.0") ++ str "B" :=
  ⟨by decide, by decide,
    c3_replace_single_occurrence (str "A<Version>1.0.0</Version>B")
      (str "1.0.0") (str "1.1.0") (str "A") (str "B") (by decide) (by decide)⟩

/-- C4: the collected release files keep the filesystem listing order —
they are NOT sorted by name.  With the same two files listed as
`[b.lua, a.lua]` the collection is `[b.lua, a.lua, manifest.xml]`,
unsorted, and a run over the permuted listing `[a.lua, b.lua]` produces a
different entry order, contradicting the claimed determinism. -/
theorem c4_collection_order_not_sorted :
    releaseFiles [str "b.lua", str "a.lua"]
        = [str "b.lua", str "a.lua", str "manifest.xml"]
    ∧ sortedByName (releaseFiles [str "b.lua", str "a.lua"]) = false
    ∧ [str "b.lua", str "a.lua"].Perm [str "a.lua", str "b.lua"]
    ∧ releaseFiles [str "b.lua", str "a.lua"] ≠ releaseFiles [str "a.lua", str "b.lua"] := by
  exact ⟨by decide, by decide, List.Perm.swap _ _ _, by decide⟩

/-- C5: with the archive file left by a previous run present at
`release/MyTool.xrnx`, the run aborts with the not-a-directory error from
`remove_dir_all` instead of replacing it; only a pre-existing DIRECTORY at
that path is removed and replaced successfully. -/
theorem c5_existing_file_aborts :
    (runMain deserMyTool fsPrevFile).1 = .error .notADirectory
    ∧ (runMain deserMyTool fsPrevDir).1 = .ok (str "release/MyTool.xrnx") := by
  exact ⟨by decide, by decide⟩

/-- Helper: a field whose trimmed content is non-empty is non-empty. -/
theorem ne_nil_of_trim_ne (s : Str) (h : (trimWs s).isEmpty = false) : s ≠ [] := by
  intro hs
  subst hs
  exact absurd h (by decide)

/-- C6: manifest parsing either returns a non-empty identifier and
non-empty version, or fails with a missing-field error naming exactly the
absent field (`Id` checked first, then `Version`), or wraps the
deserializer's malformed-document error — assuming the deserializer
resolves whitespace-only or absent required fields to `None`. -/
theorem c6_parse_manifest_trichotomy (r : Except Str Manifest)
    (h : deserResolvedB r = true) :
    (∃ id ver, parse_manifest r = .ok (id, ver) ∧ id ≠ [] ∧ ver ≠ [])
    ∨ (parse_manifest r = .error (.MissingField (str "Id"))
        ∧ ∀ m, r = .ok m → m.id = none)
    ∨ (parse_manifest r = .error (.MissingField (str "Version"))
        ∧ ∀ m, r = .ok m → m.id ≠ none ∧ m.version = none)
    ∨ (∃ e, parse_manifest r = .error (.Xml e)) := by
  cases r with
  | error e => exact Or.inr (Or.inr (Or.inr ⟨e, rfl⟩))
  | ok m =>
    rw [show deserResolvedB (.ok m) = (resolvedFieldB m.id && resolvedFieldB m.version)
      from rfl, Bool.and_eq_true] at h
    cases hid : m.id with
    | none =>
      refine Or.inr (Or.inl ⟨by simp [parse_manifest, hid], ?_⟩)
      intro m' hm'
      cases hm'
      exact hid
    | some idv =>
      cases hver : m.version with
      | none =>
        refine Or.inr (Or.inr (Or.inl ⟨by simp [parse_manifest, hid, hver], ?_⟩))
        intro m' hm'
        cases hm'
        exact ⟨by simp [hid], hver⟩
      | some verv =>
        refine Or.inl ⟨idv, verv, by simp [parse_manifest, hid, hver], ?_, ?_⟩
        · refine ne_nil_of_trim_ne idv ?_
          have h1 := h.1
          rw [hid, resolvedFieldB, Bool.not_eq_true'] at h1
          exact h1
        · refine ne_nil_of_trim_ne verv ?_
          have h2 := h.2
          rw [hver, resolvedFieldB, Bool.not_eq_true'] at h2
          exact h2

/-- A concrete deserializer outcome carrying `Id=MyTool`, `Version=1.0`. -/
def rOkMyTool : Except Str Manifest :=
  .ok ⟨none, none, none, some (str "MyTool"), none, some (str "1.0"), none⟩

/-- C6 witness: a deserializer result carrying `Id=MyTool`, `Version=1.0`
satisfies the resolution hypothesis and the trichotomy holds there. -/
theorem c6_parse_manifest_trichotomy_witness :
    deserResolvedB rOkMyTool = true
    ∧ ((∃ id ver, parse_manifest rOkMyTool = .ok (id, ver) ∧ id ≠ [] ∧ ver ≠ [])
      ∨ (parse_manifest rOkMyTool = .error (.MissingField (str "Id"))
          ∧ ∀ m, rOkMyTool = .ok m → m.id = none)
      ∨ (parse_manifest rOkMyTool = .error (.MissingField (str "Version"))
          ∧ ∀ m, rOkMyTool = .ok m → m.id ≠ none ∧ m.version = none)
      ∨ (∃ e, parse_manifest rOkMyTool = .error (.Xml e))) :=
  ⟨by decide, c6_parse_manifest_trichotomy rOkMyTool (by decide)⟩

/-- C7: when the run aborts with a manifest-not-found, manifest-parse
(malformed document or missing field) or invalid-version error, the final
state equals the initial state: the manifest is unchanged and no release
directory has been created. -/
theorem c7_no_mutation_on_early_error (deser : Str → Except Str Manifest) (fs : FS)
    (r : Except RunError Str) (fs' : FS) (h : runMain deser fs = (r, fs')) :
    (r = .error .manifestNotFound → fs' = fs)
    ∧ (∀ e, r = .error (.parse e) → fs' = fs)
    ∧ (r = .error .invalidVersion → fs' = fs) := by
  simp only [runMain] at h
  split at h
  · injection h with h1 h2
    subst h1; subst h2
    exact ⟨fun _ => rfl, fun _ _ => rfl, fun _ => rfl⟩
  · split at h
    · injection h with h1 h2
      subst h1; subst h2
      exact ⟨fun _ => rfl, fun _ _ => rfl, fun _ => rfl⟩
    · split at h
      · injection h with h1 h2
        subst h1; subst h2
        exact ⟨fun _ => rfl, fun _ _ => rfl, fun _ => rfl⟩
      · split at h <;>
          (injection h with h1 h2; subst h1; subst h2;
            refine ⟨fun hc => ?_, fun e hc => ?_, fun hc => ?_⟩ <;> simp at hc)

/-- C7 witness: a manifest whose deserialization lacks the `Id` field makes
the run abort with the missing-field error and leaves the state intact. -/
theorem c7_no_mutation_on_early_error_witness :
    (runMain deserMissingId ⟨some (str "x"), [], none⟩).2 = ⟨some (str "x"), [], none⟩ :=
  (c7_no_mutation_on_early_error deserMissingId ⟨some (str "x"), [], none⟩
      (runMain deserMissingId ⟨some (str "x"), [], none⟩).1
      (runMain deserMissingId ⟨some (str "x"), [], none⟩).2 rfl).2.1
    (.MissingField (str "Id")) (by decide)

/-- C8 counterexample: a readme in mixed case — `Readme.md`, whose
lowercasing is `readme.md` — is NOT selected, so the match is not
case-insensitive. -/
theorem c8_mixed_case_not_selected :
    selectReadme [str "Readme.md"] = none
    ∧ (str "Readme.md").map Char.toLower = str "readme.md" := by
  exact ⟨by decide, by decide⟩

/-- C8 (amended): source collection selects at most one readme by EXACT
name match against the two spellings `readme.md` and `README.md` — other
casings are not selected — and when both spellings exist the all-lowercase
`readme.md` is preferred. -/
theorem c8_readme_exact_match (listing : List Str) :
    (selectReadme listing = none ∨ selectReadme listing = some (str "readme.md")
      ∨ selectReadme listing = some (str "README.md"))
    ∧ ((str "readme.md") ∈ listing → selectReadme listing = some (str "readme.md"))
    ∧ ((str "readme.md") ∉ listing → (str "README.md") ∈ listing →
        selectReadme listing = some (str "README.md"))
    ∧ (∀ n, selectReadme listing = some n → n ∈ listing) := by
  by_cases h1 : (str "readme.md") ∈ listing
  · have hsel : selectReadme listing = some (str "readme.md") := by
      simp [selectReadme, h1]
    refine ⟨Or.inr (Or.inl hsel), fun _ => hsel, fun hc _ => absurd h1 hc, ?_⟩
    intro n hn
    rw [hsel] at hn
    injection hn with hn
    subst hn
    exact h1
  · by_cases h2 : (str "README.md") ∈ listing
    · have hsel : selectReadme listing = some (str "README.md") := by
        simp [selectReadme, h1, h2]
      refine ⟨Or.inr (Or.inr hsel), fun hc => absurd hc h1, fun _ _ => hsel, ?_⟩
      intro n hn
      rw [hsel] at hn
      injection hn with hn
      subst hn
      exact h2
    · have hsel : selectReadme listing = none := by
        simp [selectReadme, h1, h2]
      refine ⟨Or.inl hsel, fun hc => absurd hc h1, fun _ hc => absurd hc h2, ?_⟩
      intro n hn
      rw [hsel] at hn
      exact Option.noConfusion hn

/-- C8 witness: with both spellings present the lowercase one wins. -/
theorem c8_readme_exact_match_witness :
    (selectReadme [str "README.md", str "readme.md"] = none
      ∨ selectReadme [str "README.md", str "readme.md"] = some (str "readme.md")
      ∨ selectReadme [str "README.md", str "readme.md"] = some (str "README.md"))
    ∧ ((str "readme.md") ∈ [str "README.md", str "readme.md"] →
        selectReadme [str "README.md", str "readme.md"] = some (str "readme.md"))
    ∧ ((str "readme.md") ∉ [str "README.md", str "readme.md"] →
        (str "README.md") ∈ [str "README.md", str "readme.md"] →
        selectReadme [str "README.md", str "readme.md"] = some (str "README.md"))
    ∧ (∀ n, selectReadme [str "README.md", str "readme.md"] = some n →
        n ∈ [str "README.md", str "readme.md"]) :=
  c8_readme_exact_match [str "README.md", str "readme.md"]

/-- C9: when the old-version markup does not occur in the manifest text,
the patch returns the text unchanged — a silent no-op. -/
theorem c9_patch_noop_when_absent (text old new : Str)
    (h : containsSeq (versionTag old) text = false) :
    patchManifest text old new = text := by
  unfold patchManifest replaceAll
  exact replaceFuel_of_not_contains (versionTag old) (versionTag new) text.length text h

/-- C9 witness: a manifest whose version field uses `<Ver>` markup does not
contain the expected markup and is returned unchanged. -/
theorem c9_patch_noop_when_absent_witness :
    containsSeq (versionTag (str "1.0.0")) (str "<Ver>1.0.0</Ver>") = false
    ∧ patchManifest (str "<Ver>1.0.0</Ver>") (str "1.0.0") (str "1.1.0")
        = str "<Ver>1.0.0</Ver>" :=
  ⟨by decide,
    c9_patch_noop_when_absent (str "<Ver>1.0.0</Ver>") (str "1.0.0") (str "1.1.0")
      (by decide)⟩

/-- C10: whichever readme variant is selected, it is copied to the fixed
destination name `README.md`; any copy whose source is a readme spelling
has destination `README.md`. -/
theorem c10_readme_stored_uppercase (listing : List Str) (n : Str)
    (h : selectReadme listing = some n) :
    ((str "README.md"), n) ∈ copy_sources listing
    ∧ ∀ d s, (d, s) ∈ copy_sources listing →
        (s = str "readme.md" ∨ s = str "README.md") → d = str "README.md" := by
  constructor
  · simp [copy_sources, h]
  · intro d s hm hs
    rw [copy_sources, h] at hm
    rcases List.mem_append.mp hm with hm1 | hm2
    · obtain ⟨m, hmf, hme⟩ := List.mem_map.mp hm1
      injection hme with hd hsx
      subst hd; subst hsx
      rcases hs with hs | hs
      · rw [hs] at hmf
        exact absurd (List.mem_filter.mp hmf).2 (by decide)
      · exact hs
    · simp at hm2
      exact hm2.1

/-- C10 witness: a lowercase `readme.md` in the working directory is
stored in the release as `README.md`. -/
theorem c10_readme_stored_uppercase_witness :
    ((str "README.md"), str "readme.md") ∈ copy_sources [str "readme.md"]
    ∧ ∀ d s, (d, s) ∈ copy_sources [str "readme.md"] →
        (s = str "readme.md" ∨ s = str "README.md") → d = str "README.md" :=
  c10_readme_stored_uppercase [str "readme.md"] (str "readme.md") (by decide)
